import Mathlib

/-!
Shallow embedding of the EVM (frontier) system instructions
`create`, `return_`, `call`, `callcode` from
`src/ethereum/frontier/vm/instructions/system.py`, together with the
data model (Message, Evm frame, world state) and the collaborator
functions (gas metering, memory, stack, state access, address
derivation) that the handlers depend on.  The four instruction handlers
are translated directly from the Python source; the collaborators are
not part of the source tree and are modelled from the specification.

Machine integers (U256 / Uint) are modelled as `Nat`; the claims under
study do not exercise 256-bit overflow, and in this codebase arithmetic
on these types raises on overflow rather than wrapping.  Fallible
operations (stack pop, gas subtraction) return `Except EvmError`.
The recursive interpreter entry points `process_message` /
`process_create_message` are passed to each handler as an explicit
function parameter, mirroring the abstract "frame processor"
capability the specification describes.
-/

namespace EvmSystem

/-- Modelled from the spec: errors fatal to the current frame, raised
by gas charging and stack access (section 7 of the specification). -/
inductive EvmError where
  | OutOfGas : EvmError
  | StackUnderflow : EvmError
deriving DecidableEq, Repr

/-- Modelled from the spec: a 160-bit account address, represented as a
natural number below 2^160. -/
abbrev Address : Type := Nat

/-- Modelled from the spec: one account of the world state — balance,
nonce and code (`get_account` yields a zero-valued account for unknown
addresses, so the mapping is total). -/
structure Account where
  balance : Nat
  nonce : Nat
  code : List Nat
deriving DecidableEq, Repr

/-- Modelled from the spec: the world state, a mapping from address to
account, represented as an association list. -/
abbrev State : Type := List (Address × Account)

/-- Modelled from the spec: the zero-valued account returned for
addresses absent from the state. -/
def emptyAccount : Account := { balance := 0, nonce := 0, code := [] }

/-- Modelled from the spec: `get_account(state, address)` — total and
deterministic; unknown addresses yield a zero-valued account. -/
def get_account (state : State) (address : Address) : Account :=
  match state.find? (fun p => p.1 == address) with
  | some p => p.2
  | none => emptyAccount

/-- Modelled from the spec: whether an address has an entry in the
state (used by the call gas cost's new-account surcharge). -/
def account_exists (state : State) (address : Address) : Bool :=
  (state.find? (fun p => p.1 == address)).isSome

/-- Modelled from the spec: `increment_nonce(state, address)` bumps the
nonce of the given account by one, leaving the rest of the account and
the rest of the state unchanged. -/
def increment_nonce (state : State) (address : Address) : State :=
  if account_exists state address then
    state.map (fun p =>
      if p.1 == address then (p.1, { p.2 with nonce := p.2.nonce + 1 }) else p)
  else
    (address, { emptyAccount with nonce := 1 }) :: state

/-- Modelled from the spec: `compute_contract_address(creator, nonce)`
— a pure, deterministic, injective function of the creating account and
its nonce, yielding a 160-bit address.  (The concrete hash used by the
implementation is immaterial to the claims; injectivity on small inputs
stands in for collision-freeness.) -/
def compute_contract_address (creator : Address) (nonce : Nat) : Address :=
  (Nat.pair creator nonce + 1) % (2 ^ 160)

/-- Modelled from the spec: `to_address` truncates a 256-bit word to
its low 160 bits. -/
def to_address (w : Nat) : Address := w % (2 ^ 160)

/-- Modelled from the spec: a Message, the immutable descriptor of one
call / create request.  `target` is `none` for an in-flight creation
(the Python source uses the empty byte string there). -/
structure Message where
  caller : Address
  target : Option Address
  gas : Nat
  value : Nat
  data : List Nat
  code : List Nat
  current_target : Address
  depth : Nat
deriving DecidableEq, Repr

/-- Modelled from the spec: the shared environment handle — the
transaction-level originating sender and the world state reference. -/
structure Environment where
  origin : Address
  state : State
deriving DecidableEq, Repr

/-- Modelled from the spec: one execution frame (the Python `Evm`
dataclass): program counter, operand stack, memory, gas budget,
running flag, output buffer, originating message and environment. -/
structure Evm where
  pc : Nat
  stack : List Nat
  memory : List Nat
  gas_left : Nat
  running : Bool
  output : List Nat
  message : Message
  env : Environment
deriving DecidableEq, Repr

/-- Modelled from the spec: `pop` — LIFO removal; fails with
StackUnderflow on an empty stack. -/
def pop : List Nat → Except EvmError (Nat × List Nat)
  | [] => .error .StackUnderflow
  | x :: xs => .ok (x, xs)

/-- Modelled from the spec: `push` — always succeeds at this layer. -/
def push (stack : List Nat) (v : Nat) : List Nat := v :: stack

/-- Modelled from the spec: `subtract_gas(gas_left, amount)` fails with
OutOfGas when amount > gas_left, otherwise returns the difference; no
partial charges. -/
def subtract_gas (gas_left amount : Nat) : Except EvmError Nat :=
  if gas_left < amount then .error .OutOfGas else .ok (gas_left - amount)

/-- Modelled from the spec: round a byte count up to the 32-byte
machine word size. -/
def ceil32 (n : Nat) : Nat := ((n + 31) / 32) * 32

/-- Modelled from the spec: gas-cost table constant — per-word cost of
growing memory. -/
def GAS_MEMORY : Nat := 3

/-- Modelled from the spec: gas-cost table constant for CREATE. -/
def GAS_CREATE : Nat := 32000

/-- Modelled from the spec: gas-cost table constant, the zero base cost
charged by RETURN. -/
def GAS_ZERO : Nat := 0

/-- Modelled from the spec: gas-cost table constant, static cost of a
call. -/
def GAS_CALL : Nat := 40

/-- Modelled from the spec: gas-cost table constant, surcharge for
calling a not-yet-existing account. -/
def GAS_NEW_ACCOUNT : Nat := 25

/-- Modelled from the spec: gas-cost table constant, surcharge for a
value-transferring call. -/
def GAS_CALL_VALUE : Nat := 9000

/-- Modelled from the spec: the stipend, the minimum extra gas granted
to a callee when a nonzero value is transferred. -/
def GAS_CALL_STIPEND : Nat := 2300

/-- Modelled from the spec: the configured call-depth limit, a named
configuration constant. -/
def STACK_DEPTH_LIMIT : Nat := 1024

/-- Modelled from the spec: `calculate_gas_extend_memory` — the
incremental cost of growing memory to cover `[offset, offset+size)`;
zero cost when the size is zero or the region is already covered. -/
def calculate_gas_extend_memory (memory : List Nat) (offset size : Nat) : Nat :=
  if size = 0 then 0
  else GAS_MEMORY * ((ceil32 (max memory.length (offset + size)) - memory.length) / 32)

/-- Modelled from the spec: `extend_memory` grows the buffer to at
least cover `[offset, offset+size)`, zero-filled, rounded up to the
word size; a no-op when the size is zero or the region is already
covered; never shrinks. -/
def extend_memory (memory : List Nat) (offset size : Nat) : List Nat :=
  if size = 0 then memory
  else memory ++ List.replicate (ceil32 (max memory.length (offset + size)) - memory.length) 0

/-- Modelled from the spec: `memory_read_bytes` reads
`[offset, offset+size)` from already-extended memory; a zero-length
read returns an empty sequence. -/
def memory_read_bytes (memory : List Nat) (offset size : Nat) : List Nat :=
  (memory.drop offset).take size

/-- Modelled from the spec: `memory_write` overwrites the bytes at
`[offset, offset + len value)`; a zero-length write is a no-op. -/
def memory_write (memory : List Nat) (offset : Nat) (value : List Nat) : List Nat :=
  memory.take offset ++ value ++ memory.drop (offset + value.length)

/-- Modelled from the spec: `calculate_call_gas_cost(state, gas, to,
value)` — the static + dynamic cost of dispatching a call: the static
cost, the forwarded gas allowance (charged to the caller before it is
handed over), the new-account surcharge, and the value-transfer
surcharge. -/
def calculate_call_gas_cost (state : State) (gas : Nat) (toAddr : Address)
    (value : Nat) : Nat :=
  GAS_CALL + gas
    + (if account_exists state toAddr then 0 else GAS_NEW_ACCOUNT)
    + (if value = 0 then 0 else GAS_CALL_VALUE)

/-- Modelled from the spec: `calculate_message_call_gas_stipend(value)`
— extra gas granted to the callee only when value > 0. -/
def calculate_message_call_gas_stipend (value : Nat) : Nat :=
  if value = 0 then 0 else GAS_CALL_STIPEND

/-- Modelled from the spec: the type of the abstract frame processor —
`process_message` / `process_create_message` take a Message and an
environment and return a terminal child frame. -/
def Processor : Type := Message → Environment → Evm

/-- Translated from the source (`system.py`, `create`): pops endowment,
memory start and size; charges the creation plus memory-extension cost;
extends memory; checks the balance of `env.origin` against the
endowment and the child depth against the depth limit, pushing 0 on
failure; otherwise increments the nonce of the current account, derives
the contract address, forwards the entire remaining gas to a child
creation message, recurses through the processor, pushes the child's
current target and adopts the child's remaining gas. -/
def create (process_create_message : Processor) (evm : Evm) :
    Except EvmError Evm := do
  let (endowment, s1) ← pop evm.stack
  let (memory_start_position, s2) ← pop s1
  let (memory_size, s3) ← pop s2
  let gas_cost := GAS_CREATE +
    calculate_gas_extend_memory evm.memory memory_start_position memory_size
  let g1 ← subtract_gas evm.gas_left gas_cost
  let mem1 := extend_memory evm.memory memory_start_position memory_size
  let sender_address := evm.env.origin
  let sender := get_account evm.env.state sender_address
  if sender.balance < endowment then
    return { evm with stack := push s3 0, memory := mem1, gas_left := g1 }
  if evm.message.depth + 1 > STACK_DEPTH_LIMIT then
    return { evm with stack := push s3 0, memory := mem1, gas_left := g1 }
  let call_data := memory_read_bytes mem1 memory_start_position memory_size
  let state1 := increment_nonce evm.env.state evm.message.current_target
  let contract_address := compute_contract_address evm.message.current_target
    ((get_account state1 evm.message.current_target).nonce - 1)
  let gas_left := g1
  let g2 ← subtract_gas g1 gas_left
  let child_message : Message :=
    { caller := evm.message.current_target
      target := none
      gas := gas_left
      value := endowment
      data := []
      code := call_data
      current_target := contract_address
      depth := evm.message.depth + 1 }
  let env1 : Environment := { evm.env with state := state1 }
  let child_evm := process_create_message child_message env1
  let _ := g2
  return { evm with
    stack := push s3 child_evm.message.current_target
    memory := mem1
    gas_left := child_evm.gas_left
    env := child_evm.env }

/-- Translated from the source (`system.py`, `return_`): pops memory
start and size, charges the zero base cost plus the memory-extension
cost, extends memory, copies the addressed region into the frame's
output buffer and halts the frame. -/
def return_ (evm : Evm) : Except EvmError Evm := do
  let (memory_start_position, s1) ← pop evm.stack
  let (memory_size, s2) ← pop s1
  let gas_cost := GAS_ZERO +
    calculate_gas_extend_memory evm.memory memory_start_position memory_size
  let g1 ← subtract_gas evm.gas_left gas_cost
  let mem1 := extend_memory evm.memory memory_start_position memory_size
  return { evm with
    stack := s2
    memory := mem1
    gas_left := g1
    output := memory_read_bytes mem1 memory_start_position memory_size
    running := false }

/-- Translated from the source (`system.py`, `call`): pops gas, target,
value and the four memory region words; charges the call gas fee and
the two memory-extension fees in order, extending memory after each;
reads the call data; on insufficient balance of the current account or
exceeded depth pushes 0 and refunds the message call gas fee; otherwise
builds the child message with the target's code, recurses through the
processor, pushes 1 unconditionally, writes the child output into the
output region and adds the child's remaining gas back. -/
def call (process_message : Processor) (evm : Evm) : Except EvmError Evm := do
  let (gas, s1) ← pop evm.stack
  let (toWord, s2) ← pop s1
  let toAddr := to_address toWord
  let (value, s3) ← pop s2
  let (memory_input_start_position, s4) ← pop s3
  let (memory_input_size, s5) ← pop s4
  let (memory_output_start_position, s6) ← pop s5
  let (memory_output_size, s7) ← pop s6
  let call_gas_fee := calculate_call_gas_cost evm.env.state gas toAddr value
  let message_call_gas_fee := gas + calculate_message_call_gas_stipend value
  let g1 ← subtract_gas evm.gas_left call_gas_fee
  let gas_input_memory := calculate_gas_extend_memory evm.memory
    memory_input_start_position memory_input_size
  let g2 ← subtract_gas g1 gas_input_memory
  let mem1 := extend_memory evm.memory memory_input_start_position
    memory_input_size
  let gas_output_memory := calculate_gas_extend_memory mem1
    memory_output_start_position memory_output_size
  let g3 ← subtract_gas g2 gas_output_memory
  let mem2 := extend_memory mem1 memory_output_start_position
    memory_output_size
  let call_data := memory_read_bytes mem2 memory_input_start_position
    memory_input_size
  let sender_balance := (get_account evm.env.state
    evm.message.current_target).balance
  if sender_balance < value then
    return { evm with
      stack := push s7 0
      memory := mem2
      gas_left := g3 + message_call_gas_fee }
  if evm.message.depth + 1 > STACK_DEPTH_LIMIT then
    return { evm with
      stack := push s7 0
      memory := mem2
      gas_left := g3 + message_call_gas_fee }
  let code := (get_account evm.env.state toAddr).code
  let child_message : Message :=
    { caller := evm.message.current_target
      target := some toAddr
      gas := message_call_gas_fee
      value := value
      data := call_data
      code := code
      current_target := toAddr
      depth := evm.message.depth + 1 }
  let child_evm := process_message child_message evm.env
  let actual_output_size := min memory_output_size child_evm.output.length
  return { evm with
    stack := push s7 1
    memory := memory_write mem2 memory_output_start_position
      (child_evm.output.take actual_output_size)
    gas_left := g3 + child_evm.gas_left
    env := child_evm.env }

/-- Translated from the source (`system.py`, `callcode`): identical
pops and accounting to `call` except that the address popped in second
position is the code address, the call target is the frame's own
current account, and the child code is fetched from the code address. -/
def callcode (process_message : Processor) (evm : Evm) :
    Except EvmError Evm := do
  let (gas, s1) ← pop evm.stack
  let (codeWord, s2) ← pop s1
  let code_address := to_address codeWord
  let (value, s3) ← pop s2
  let (memory_input_start_position, s4) ← pop s3
  let (memory_input_size, s5) ← pop s4
  let (memory_output_start_position, s6) ← pop s5
  let (memory_output_size, s7) ← pop s6
  let toAddr := evm.message.current_target
  let call_gas_fee := calculate_call_gas_cost evm.env.state gas toAddr value
  let message_call_gas_fee := gas + calculate_message_call_gas_stipend value
  let g1 ← subtract_gas evm.gas_left call_gas_fee
  let gas_input_memory := calculate_gas_extend_memory evm.memory
    memory_input_start_position memory_input_size
  let g2 ← subtract_gas g1 gas_input_memory
  let mem1 := extend_memory evm.memory memory_input_start_position
    memory_input_size
  let gas_output_memory := calculate_gas_extend_memory mem1
    memory_output_start_position memory_output_size
  let g3 ← subtract_gas g2 gas_output_memory
  let mem2 := extend_memory mem1 memory_output_start_position
    memory_output_size
  let call_data := memory_read_bytes mem2 memory_input_start_position
    memory_input_size
  let sender_balance := (get_account evm.env.state
    evm.message.current_target).balance
  if sender_balance < value then
    return { evm with
      stack := push s7 0
      memory := mem2
      gas_left := g3 + message_call_gas_fee }
  if evm.message.depth + 1 > STACK_DEPTH_LIMIT then
    return { evm with
      stack := push s7 0
      memory := mem2
      gas_left := g3 + message_call_gas_fee }
  let code := (get_account evm.env.state code_address).code
  let child_message : Message :=
    { caller := evm.message.current_target
      target := some toAddr
      gas := message_call_gas_fee
      value := value
      data := call_data
      code := code
      current_target := toAddr
      depth := evm.message.depth + 1 }
  let child_evm := process_message child_message evm.env
  let actual_output_size := min memory_output_size child_evm.output.length
  return { evm with
    stack := push s7 1
    memory := memory_write mem2 memory_output_start_position
      (child_evm.output.take actual_output_size)
    gas_left := g3 + child_evm.gas_left
    env := child_evm.env }

/-! ### Proof infrastructure: inversion and reduction lemmas -/

theorem pop_cons (x : Nat) (xs : List Nat) : pop (x :: xs) = .ok (x, xs) := rfl

theorem pop_nil : pop [] = .error .StackUnderflow := rfl

theorem subtract_gas_of_le {g a : Nat} (h : a ≤ g) :
    subtract_gas g a = .ok (g - a) := by
  simp [subtract_gas, Nat.not_lt.mpr h]

theorem subtract_gas_self (g : Nat) : subtract_gas g g = .ok 0 := by
  simp [subtract_gas]

theorem except_bind_ok {α β : Type} (a : α) (f : α → Except EvmError β) :
    (Except.ok a : Except EvmError α) >>= f = f a := rfl

theorem except_bind_eq_ok {α β : Type} {x : Except EvmError α}
    {f : α → Except EvmError β} {b : β} :
    x >>= f = Except.ok b ↔ ∃ a, x = Except.ok a ∧ f a = Except.ok b := by
  cases x <;> simp [Bind.bind, Except.bind]

theorem except_pure_eq_ok {α : Type} {a b : α} :
    (pure a : Except EvmError α) = Except.ok b ↔ a = b := by
  constructor
  · intro h
    cases h
    rfl
  · intro h
    cases h
    rfl

theorem pop_eq_ok {l : List Nat} {p : Nat × List Nat} :
    pop l = Except.ok p ↔ l = p.1 :: p.2 := by
  cases l with
  | nil => simp [pop]
  | cons x xs =>
    cases p with
    | mk a s =>
      constructor
      · intro h
        cases h
        rfl
      · intro h
        cases h
        rfl

theorem subtract_gas_eq_ok {g a r : Nat} :
    subtract_gas g a = Except.ok r ↔ a ≤ g ∧ r = g - a := by
  unfold subtract_gas
  by_cases h : g < a
  · simp [h]
  · simp [h]
    omega

/-! ### Characterization of the CREATE paths -/

/-- The gas charged up front by CREATE. -/
def createGasCost (evm : Evm) (p n : Nat) : Nat :=
  GAS_CREATE + calculate_gas_extend_memory evm.memory p n

theorem create_fail_balance_eq (proc : Processor) (evm : Evm)
    (endowment p n : Nat) (rest : List Nat)
    (hstack : evm.stack = endowment :: p :: n :: rest)
    (hgas : createGasCost evm p n ≤ evm.gas_left)
    (hbal : (get_account evm.env.state evm.env.origin).balance < endowment) :
    create proc evm = Except.ok { evm with
      stack := 0 :: rest
      memory := extend_memory evm.memory p n
      gas_left := evm.gas_left - createGasCost evm p n } := by
  unfold createGasCost at hgas
  simp only [create, hstack, pop_cons, except_bind_ok, subtract_gas_of_le hgas,
    if_pos hbal, push]
  rfl

theorem create_fail_depth_eq (proc : Processor) (evm : Evm)
    (endowment p n : Nat) (rest : List Nat)
    (hstack : evm.stack = endowment :: p :: n :: rest)
    (hgas : createGasCost evm p n ≤ evm.gas_left)
    (hbal : ¬ (get_account evm.env.state evm.env.origin).balance < endowment)
    (hdepth : evm.message.depth + 1 > STACK_DEPTH_LIMIT) :
    create proc evm = Except.ok { evm with
      stack := 0 :: rest
      memory := extend_memory evm.memory p n
      gas_left := evm.gas_left - createGasCost evm p n } := by
  unfold createGasCost at hgas
  simp only [create, hstack, pop_cons, except_bind_ok, subtract_gas_of_le hgas,
    if_neg hbal, if_pos hdepth, push]
  rfl

/-- The address CREATE derives for the new contract: a pure function of
the creating account and its nonce just before the increment (the
source reads the post-increment nonce and subtracts one). -/
def createDerivedAddress (evm : Evm) : Address :=
  compute_contract_address evm.message.current_target
    ((get_account (increment_nonce evm.env.state evm.message.current_target)
      evm.message.current_target).nonce - 1)

/-- The child Message CREATE hands to `process_create_message`. -/
def createChildMessage (evm : Evm) (endowment p n : Nat) : Message :=
  { caller := evm.message.current_target
    target := none
    gas := evm.gas_left - createGasCost evm p n
    value := endowment
    data := []
    code := memory_read_bytes (extend_memory evm.memory p n) p n
    current_target := createDerivedAddress evm
    depth := evm.message.depth + 1 }

/-- The environment CREATE hands to `process_create_message`: the world
state with the creator's nonce already incremented. -/
def createChildEnv (evm : Evm) : Environment :=
  { evm.env with
    state := increment_nonce evm.env.state evm.message.current_target }

theorem create_ok_eq (proc : Processor) (evm : Evm)
    (endowment p n : Nat) (rest : List Nat)
    (hstack : evm.stack = endowment :: p :: n :: rest)
    (hgas : createGasCost evm p n ≤ evm.gas_left)
    (hbal : ¬ (get_account evm.env.state evm.env.origin).balance < endowment)
    (hdepth : ¬ evm.message.depth + 1 > STACK_DEPTH_LIMIT) :
    create proc evm = Except.ok { evm with
      stack := (proc (createChildMessage evm endowment p n)
        (createChildEnv evm)).message.current_target :: rest
      memory := extend_memory evm.memory p n
      gas_left := (proc (createChildMessage evm endowment p n)
        (createChildEnv evm)).gas_left
      env := (proc (createChildMessage evm endowment p n)
        (createChildEnv evm)).env } := by
  have hgas' : GAS_CREATE + calculate_gas_extend_memory evm.memory p n
      ≤ evm.gas_left := hgas
  simp only [create, hstack, pop_cons, except_bind_ok,
    subtract_gas_of_le hgas', if_neg hbal, if_neg hdepth, subtract_gas_self,
    push, createChildMessage, createChildEnv, createDerivedAddress,
    createGasCost]
  rfl

/-! ### Characterization of the RETURN path -/

theorem return_ok_eq (evm : Evm) (p n : Nat) (rest : List Nat)
    (hstack : evm.stack = p :: n :: rest)
    (hgas : GAS_ZERO + calculate_gas_extend_memory evm.memory p n
      ≤ evm.gas_left) :
    return_ evm = Except.ok { evm with
      stack := rest
      memory := extend_memory evm.memory p n
      gas_left := evm.gas_left
        - (GAS_ZERO + calculate_gas_extend_memory evm.memory p n)
      output := memory_read_bytes (extend_memory evm.memory p n) p n
      running := false } := by
  simp only [return_, hstack, pop_cons, except_bind_ok, subtract_gas_of_le hgas]
  rfl

/-! ### Characterization of the CALL paths -/

/-- The memory of the parent frame after the two extensions CALL and
CALLCODE perform (input region first, then output region). -/
def callExtendedMemory (evm : Evm) (mis miz mos moz : Nat) : List Nat :=
  extend_memory (extend_memory evm.memory mis miz) mos moz

/-- The two memory-extension fees CALL and CALLCODE charge, in charge
order (the second is computed against the already-extended memory). -/
def callMemoryFees (evm : Evm) (mis miz mos moz : Nat) : Nat :=
  calculate_gas_extend_memory evm.memory mis miz
    + calculate_gas_extend_memory (extend_memory evm.memory mis miz) mos moz

theorem call_fail_balance_eq (proc : Processor) (evm : Evm)
    (gas toWord value mis miz mos moz : Nat) (rest : List Nat)
    (hstack : evm.stack
      = gas :: toWord :: value :: mis :: miz :: mos :: moz :: rest)
    (hgas : calculate_call_gas_cost evm.env.state gas (to_address toWord) value
      + callMemoryFees evm mis miz mos moz ≤ evm.gas_left)
    (hbal : (get_account evm.env.state evm.message.current_target).balance
      < value) :
    call proc evm = Except.ok { evm with
      stack := 0 :: rest
      memory := callExtendedMemory evm mis miz mos moz
      gas_left := evm.gas_left
        - calculate_call_gas_cost evm.env.state gas (to_address toWord) value
        - calculate_gas_extend_memory evm.memory mis miz
        - calculate_gas_extend_memory (extend_memory evm.memory mis miz) mos moz
        + (gas + calculate_message_call_gas_stipend value) } := by
  unfold callMemoryFees at hgas
  have h1 : calculate_call_gas_cost evm.env.state gas (to_address toWord) value
      ≤ evm.gas_left := by omega
  have h2 : calculate_gas_extend_memory evm.memory mis miz ≤ evm.gas_left
      - calculate_call_gas_cost evm.env.state gas (to_address toWord) value := by
    omega
  have h3 : calculate_gas_extend_memory (extend_memory evm.memory mis miz)
      mos moz ≤ evm.gas_left
      - calculate_call_gas_cost evm.env.state gas (to_address toWord) value
      - calculate_gas_extend_memory evm.memory mis miz := by
    omega
  simp only [call, hstack, pop_cons, except_bind_ok, subtract_gas_of_le h1,
    subtract_gas_of_le h2, subtract_gas_of_le h3, if_pos hbal, push,
    callExtendedMemory]
  rfl

theorem call_fail_depth_eq (proc : Processor) (evm : Evm)
    (gas toWord value mis miz mos moz : Nat) (rest : List Nat)
    (hstack : evm.stack
      = gas :: toWord :: value :: mis :: miz :: mos :: moz :: rest)
    (hgas : calculate_call_gas_cost evm.env.state gas (to_address toWord) value
      + callMemoryFees evm mis miz mos moz ≤ evm.gas_left)
    (hbal : ¬ (get_account evm.env.state evm.message.current_target).balance
      < value)
    (hdepth : evm.message.depth + 1 > STACK_DEPTH_LIMIT) :
    call proc evm = Except.ok { evm with
      stack := 0 :: rest
      memory := callExtendedMemory evm mis miz mos moz
      gas_left := evm.gas_left
        - calculate_call_gas_cost evm.env.state gas (to_address toWord) value
        - calculate_gas_extend_memory evm.memory mis miz
        - calculate_gas_extend_memory (extend_memory evm.memory mis miz) mos moz
        + (gas + calculate_message_call_gas_stipend value) } := by
  unfold callMemoryFees at hgas
  have h1 : calculate_call_gas_cost evm.env.state gas (to_address toWord) value
      ≤ evm.gas_left := by omega
  have h2 : calculate_gas_extend_memory evm.memory mis miz ≤ evm.gas_left
      - calculate_call_gas_cost evm.env.state gas (to_address toWord) value := by
    omega
  have h3 : calculate_gas_extend_memory (extend_memory evm.memory mis miz)
      mos moz ≤ evm.gas_left
      - calculate_call_gas_cost evm.env.state gas (to_address toWord) value
      - calculate_gas_extend_memory evm.memory mis miz := by
    omega
  simp only [call, hstack, pop_cons, except_bind_ok, subtract_gas_of_le h1,
    subtract_gas_of_le h2, subtract_gas_of_le h3, if_neg hbal, if_pos hdepth,
    push, callExtendedMemory]
  rfl

/-- The child Message CALL hands to `process_message`. -/
def callChildMessage (evm : Evm) (gas toWord value mis miz mos moz : Nat) :
    Message :=
  { caller := evm.message.current_target
    target := some (to_address toWord)
    gas := gas + calculate_message_call_gas_stipend value
    value := value
    data := memory_read_bytes (callExtendedMemory evm mis miz mos moz) mis miz
    code := (get_account evm.env.state (to_address toWord)).code
    current_target := to_address toWord
    depth := evm.message.depth + 1 }

theorem call_ok_eq (proc : Processor) (evm : Evm)
    (gas toWord value mis miz mos moz : Nat) (rest : List Nat)
    (hstack : evm.stack
      = gas :: toWord :: value :: mis :: miz :: mos :: moz :: rest)
    (hgas : calculate_call_gas_cost evm.env.state gas (to_address toWord) value
      + callMemoryFees evm mis miz mos moz ≤ evm.gas_left)
    (hbal : ¬ (get_account evm.env.state evm.message.current_target).balance
      < value)
    (hdepth : ¬ evm.message.depth + 1 > STACK_DEPTH_LIMIT) :
    call proc evm = Except.ok { evm with
      stack := 1 :: rest
      memory := memory_write (callExtendedMemory evm mis miz mos moz) mos
        ((proc (callChildMessage evm gas toWord value mis miz mos moz)
          evm.env).output.take
          (min moz (proc (callChildMessage evm gas toWord value mis miz mos moz)
            evm.env).output.length))
      gas_left := evm.gas_left
        - calculate_call_gas_cost evm.env.state gas (to_address toWord) value
        - calculate_gas_extend_memory evm.memory mis miz
        - calculate_gas_extend_memory (extend_memory evm.memory mis miz) mos moz
        + (proc (callChildMessage evm gas toWord value mis miz mos moz)
          evm.env).gas_left
      env := (proc (callChildMessage evm gas toWord value mis miz mos moz)
        evm.env).env } := by
  unfold callMemoryFees at hgas
  have h1 : calculate_call_gas_cost evm.env.state gas (to_address toWord) value
      ≤ evm.gas_left := by omega
  have h2 : calculate_gas_extend_memory evm.memory mis miz ≤ evm.gas_left
      - calculate_call_gas_cost evm.env.state gas (to_address toWord) value := by
    omega
  have h3 : calculate_gas_extend_memory (extend_memory evm.memory mis miz)
      mos moz ≤ evm.gas_left
      - calculate_call_gas_cost evm.env.state gas (to_address toWord) value
      - calculate_gas_extend_memory evm.memory mis miz := by
    omega
  simp only [call, hstack, pop_cons, except_bind_ok, subtract_gas_of_le h1,
    subtract_gas_of_le h2, subtract_gas_of_le h3, if_neg hbal, if_neg hdepth,
    push, callExtendedMemory, callChildMessage]
  rfl

/-! ### Characterization of the CALLCODE paths -/

theorem callcode_fail_balance_eq (proc : Processor) (evm : Evm)
    (gas codeWord value mis miz mos moz : Nat) (rest : List Nat)
    (hstack : evm.stack
      = gas :: codeWord :: value :: mis :: miz :: mos :: moz :: rest)
    (hgas : calculate_call_gas_cost evm.env.state gas
        evm.message.current_target value
      + callMemoryFees evm mis miz mos moz ≤ evm.gas_left)
    (hbal : (get_account evm.env.state evm.message.current_target).balance
      < value) :
    callcode proc evm = Except.ok { evm with
      stack := 0 :: rest
      memory := callExtendedMemory evm mis miz mos moz
      gas_left := evm.gas_left
        - calculate_call_gas_cost evm.env.state gas
            evm.message.current_target value
        - calculate_gas_extend_memory evm.memory mis miz
        - calculate_gas_extend_memory (extend_memory evm.memory mis miz) mos moz
        + (gas + calculate_message_call_gas_stipend value) } := by
  unfold callMemoryFees at hgas
  have h1 : calculate_call_gas_cost evm.env.state gas
      evm.message.current_target value ≤ evm.gas_left := by omega
  have h2 : calculate_gas_extend_memory evm.memory mis miz ≤ evm.gas_left
      - calculate_call_gas_cost evm.env.state gas
          evm.message.current_target value := by
    omega
  have h3 : calculate_gas_extend_memory (extend_memory evm.memory mis miz)
      mos moz ≤ evm.gas_left
      - calculate_call_gas_cost evm.env.state gas
          evm.message.current_target value
      - calculate_gas_extend_memory evm.memory mis miz := by
    omega
  simp only [callcode, hstack, pop_cons, except_bind_ok, subtract_gas_of_le h1,
    subtract_gas_of_le h2, subtract_gas_of_le h3, if_pos hbal, push,
    callExtendedMemory]
  rfl

theorem callcode_fail_depth_eq (proc : Processor) (evm : Evm)
    (gas codeWord value mis miz mos moz : Nat) (rest : List Nat)
    (hstack : evm.stack
      = gas :: codeWord :: value :: mis :: miz :: mos :: moz :: rest)
    (hgas : calculate_call_gas_cost evm.env.state gas
        evm.message.current_target value
      + callMemoryFees evm mis miz mos moz ≤ evm.gas_left)
    (hbal : ¬ (get_account evm.env.state evm.message.current_target).balance
      < value)
    (hdepth : evm.message.depth + 1 > STACK_DEPTH_LIMIT) :
    callcode proc evm = Except.ok { evm with
      stack := 0 :: rest
      memory := callExtendedMemory evm mis miz mos moz
      gas_left := evm.gas_left
        - calculate_call_gas_cost evm.env.state gas
            evm.message.current_target value
        - calculate_gas_extend_memory evm.memory mis miz
        - calculate_gas_extend_memory (extend_memory evm.memory mis miz) mos moz
        + (gas + calculate_message_call_gas_stipend value) } := by
  unfold callMemoryFees at hgas
  have h1 : calculate_call_gas_cost evm.env.state gas
      evm.message.current_target value ≤ evm.gas_left := by omega
  have h2 : calculate_gas_extend_memory evm.memory mis miz ≤ evm.gas_left
      - calculate_call_gas_cost evm.env.state gas
          evm.message.current_target value := by
    omega
  have h3 : calculate_gas_extend_memory (extend_memory evm.memory mis miz)
      mos moz ≤ evm.gas_left
      - calculate_call_gas_cost evm.env.state gas
          evm.message.current_target value
      - calculate_gas_extend_memory evm.memory mis miz := by
    omega
  simp only [callcode, hstack, pop_cons, except_bind_ok, subtract_gas_of_le h1,
    subtract_gas_of_le h2, subtract_gas_of_le h3, if_neg hbal, if_pos hdepth,
    push, callExtendedMemory]
  rfl

/-- The child Message CALLCODE hands to `process_message`: target and
current target are the parent's own current account; only the code
comes from the popped code address. -/
def callcodeChildMessage (evm : Evm)
    (gas codeWord value mis miz mos moz : Nat) : Message :=
  { caller := evm.message.current_target
    target := some evm.message.current_target
    gas := gas + calculate_message_call_gas_stipend value
    value := value
    data := memory_read_bytes (callExtendedMemory evm mis miz mos moz) mis miz
    code := (get_account evm.env.state (to_address codeWord)).code
    current_target := evm.message.current_target
    depth := evm.message.depth + 1 }

theorem callcode_ok_eq (proc : Processor) (evm : Evm)
    (gas codeWord value mis miz mos moz : Nat) (rest : List Nat)
    (hstack : evm.stack
      = gas :: codeWord :: value :: mis :: miz :: mos :: moz :: rest)
    (hgas : calculate_call_gas_cost evm.env.state gas
        evm.message.current_target value
      + callMemoryFees evm mis miz mos moz ≤ evm.gas_left)
    (hbal : ¬ (get_account evm.env.state evm.message.current_target).balance
      < value)
    (hdepth : ¬ evm.message.depth + 1 > STACK_DEPTH_LIMIT) :
    callcode proc evm = Except.ok { evm with
      stack := 1 :: rest
      memory := memory_write (callExtendedMemory evm mis miz mos moz) mos
        ((proc (callcodeChildMessage evm gas codeWord value mis miz mos moz)
          evm.env).output.take
          (min moz
            (proc (callcodeChildMessage evm gas codeWord value mis miz mos moz)
              evm.env).output.length))
      gas_left := evm.gas_left
        - calculate_call_gas_cost evm.env.state gas
            evm.message.current_target value
        - calculate_gas_extend_memory evm.memory mis miz
        - calculate_gas_extend_memory (extend_memory evm.memory mis miz) mos moz
        + (proc (callcodeChildMessage evm gas codeWord value mis miz mos moz)
          evm.env).gas_left
      env := (proc (callcodeChildMessage evm gas codeWord value mis miz mos moz)
        evm.env).env } := by
  unfold callMemoryFees at hgas
  have h1 : calculate_call_gas_cost evm.env.state gas
      evm.message.current_target value ≤ evm.gas_left := by omega
  have h2 : calculate_gas_extend_memory evm.memory mis miz ≤ evm.gas_left
      - calculate_call_gas_cost evm.env.state gas
          evm.message.current_target value := by
    omega
  have h3 : calculate_gas_extend_memory (extend_memory evm.memory mis miz)
      mos moz ≤ evm.gas_left
      - calculate_call_gas_cost evm.env.state gas
          evm.message.current_target value
      - calculate_gas_extend_memory evm.memory mis miz := by
    omega
  simp only [callcode, hstack, pop_cons, except_bind_ok, subtract_gas_of_le h1,
    subtract_gas_of_le h2, subtract_gas_of_le h3, if_neg hbal, if_neg hdepth,
    push, callExtendedMemory, callcodeChildMessage]
  rfl

/-! ### Concrete fixtures for instantiating the claim theorems -/

/-- A concrete terminal frame processor standing in for the recursive
interpreter: it returns a terminal frame that spent half of the granted
gas and produced a fixed two-byte output. -/
def sampleProcessor : Processor := fun msg env =>
  { pc := 0
    stack := []
    memory := []
    gas_left := msg.gas / 2
    running := false
    output := [7, 9]
    message := msg
    env := env }

/-- A concrete world state: the origin account 1 and the executing
account 2. -/
def sampleState : State :=
  [(1, { balance := 100, nonce := 0, code := [] }),
   (2, { balance := 50, nonce := 3, code := [1, 2] })]

/-- A concrete message: executing account 2 at depth 5. -/
def baseMessage : Message :=
  { caller := 9
    target := some 2
    gas := 0
    value := 0
    data := []
    code := []
    current_target := 2
    depth := 5 }

/-- A concrete frame over `sampleState`. -/
def baseEvm : Evm :=
  { pc := 0
    stack := []
    memory := []
    gas_left := 100000
    running := true
    output := []
    message := baseMessage
    env := { origin := 1, state := sampleState } }

/-! ### Claim C2 -/

/-- C2: for every CREATE execution whose pops and gas charge succeed,
the balance compared against the popped endowment is that of the
environment's origin account (the transaction-level originating
sender), not the frame's own executing account.  When that balance is
less than the endowment, exactly one word 0 is pushed, the environment
(hence every nonce) is left unchanged, no recursion happens (the result
does not depend on the processor), and gas_left reflects only the
creation-plus-memory charge; when the origin balance suffices (and the
depth check passes), creation recurses regardless of the executing
account's own balance. -/
theorem c2_create_checks_origin_balance :
    (∀ (proc : Processor) (evm : Evm) (endowment p n : Nat) (rest : List Nat),
      evm.stack = endowment :: p :: n :: rest →
      createGasCost evm p n ≤ evm.gas_left →
      (get_account evm.env.state evm.env.origin).balance < endowment →
      create proc evm = Except.ok { evm with
        stack := 0 :: rest
        memory := extend_memory evm.memory p n
        gas_left := evm.gas_left - createGasCost evm p n })
    ∧ (∀ (proc : Processor) (evm : Evm) (endowment p n : Nat) (rest : List Nat),
      evm.stack = endowment :: p :: n :: rest →
      createGasCost evm p n ≤ evm.gas_left →
      ¬ (get_account evm.env.state evm.env.origin).balance < endowment →
      ¬ evm.message.depth + 1 > STACK_DEPTH_LIMIT →
      create proc evm = Except.ok { evm with
        stack := (proc (createChildMessage evm endowment p n)
          (createChildEnv evm)).message.current_target :: rest
        memory := extend_memory evm.memory p n
        gas_left := (proc (createChildMessage evm endowment p n)
          (createChildEnv evm)).gas_left
        env := (proc (createChildMessage evm endowment p n)
          (createChildEnv evm)).env }) :=
  ⟨create_fail_balance_eq, create_ok_eq⟩

/-- A frame whose origin account cannot afford the endowment 200, while
the executing account is untouched. -/
def c2FailEvm : Evm := { baseEvm with stack := [200, 0, 0, 5, 6] }

/-- A frame whose origin account can afford the endowment 30 although
the executing account (address 3, absent, balance 0) cannot: CREATE
still recurses, showing the origin account is the one checked. -/
def c2OkEvm : Evm := { baseEvm with
  stack := [30, 0, 0]
  message := { baseMessage with current_target := 3 } }

theorem c2_witness :
    (create sampleProcessor c2FailEvm = Except.ok { c2FailEvm with
      stack := 0 :: [5, 6]
      memory := extend_memory c2FailEvm.memory 0 0
      gas_left := c2FailEvm.gas_left - createGasCost c2FailEvm 0 0 })
    ∧ (create sampleProcessor c2OkEvm = Except.ok { c2OkEvm with
      stack := (sampleProcessor (createChildMessage c2OkEvm 30 0 0)
        (createChildEnv c2OkEvm)).message.current_target :: []
      memory := extend_memory c2OkEvm.memory 0 0
      gas_left := (sampleProcessor (createChildMessage c2OkEvm 30 0 0)
        (createChildEnv c2OkEvm)).gas_left
      env := (sampleProcessor (createChildMessage c2OkEvm 30 0 0)
        (createChildEnv c2OkEvm)).env }) :=
  ⟨c2_create_checks_origin_balance.1 sampleProcessor c2FailEvm 200 0 0 [5, 6]
    rfl (by decide) (by decide),
   c2_create_checks_origin_balance.2 sampleProcessor c2OkEvm 30 0 0 []
    rfl (by decide) (by decide) (by decide)⟩

/-! ### Claim C1 -/

/-- A CALL frame popping gas 5, target word 7, value 60 (more than the
executing account's balance 50) and zero-sized memory regions. -/
def c1Evm : Evm := { baseEvm with stack := [5, 7, 60, 0, 0, 0, 0] }

/-- C1 (counterexample): at `c1Evm` the insufficient-balance CALL path
leaves gas_left = 93235, while gas_left immediately after the initial
charges (call gas fee plus the two memory fees) is 90930; the claim
that the two are equal is false — the refund adds message_call_gas_fee
(the popped gas 5 plus the 2300 stipend) on top. -/
theorem c1_counterexample :
    Except.map Evm.gas_left (call sampleProcessor c1Evm) = Except.ok 93235
    ∧ c1Evm.gas_left
        - (calculate_call_gas_cost c1Evm.env.state 5 (to_address 7) 60
          + callMemoryFees c1Evm 0 0 0 0) = 90930
    ∧ (93235 : Nat) ≠ 90930 :=
  ⟨rfl, rfl, by decide⟩

/-- C1 (amended): for every CALL or CALLCODE execution whose stack pops
and gas charges succeed and where the balance of the frame's own
current account is less than the popped value: exactly one word 0 is
pushed onto the stack; the recursive invocation is not made (the result
does not depend on the processor); and message_call_gas_fee (the popped
gas plus the value-stipend) is added back to the parent's gas_left, so
that gas_left after the attempt equals gas_left immediately after the
initial charges PLUS message_call_gas_fee — a net effect of minus
call_gas_fee and the two memory-extension fees, plus
message_call_gas_fee. -/
theorem c1_insufficient_balance_refund (proc : Processor) (evm : Evm)
    (gas w value mis miz mos moz : Nat) (rest : List Nat)
    (hstack : evm.stack
      = gas :: w :: value :: mis :: miz :: mos :: moz :: rest)
    (hgasCall : calculate_call_gas_cost evm.env.state gas (to_address w) value
      + callMemoryFees evm mis miz mos moz ≤ evm.gas_left)
    (hgasCode : calculate_call_gas_cost evm.env.state gas
        evm.message.current_target value
      + callMemoryFees evm mis miz mos moz ≤ evm.gas_left)
    (hbal : (get_account evm.env.state evm.message.current_target).balance
      < value) :
    call proc evm = Except.ok { evm with
      stack := 0 :: rest
      memory := callExtendedMemory evm mis miz mos moz
      gas_left := evm.gas_left
        - calculate_call_gas_cost evm.env.state gas (to_address w) value
        - calculate_gas_extend_memory evm.memory mis miz
        - calculate_gas_extend_memory (extend_memory evm.memory mis miz) mos moz
        + (gas + calculate_message_call_gas_stipend value) }
    ∧ callcode proc evm = Except.ok { evm with
      stack := 0 :: rest
      memory := callExtendedMemory evm mis miz mos moz
      gas_left := evm.gas_left
        - calculate_call_gas_cost evm.env.state gas
            evm.message.current_target value
        - calculate_gas_extend_memory evm.memory mis miz
        - calculate_gas_extend_memory (extend_memory evm.memory mis miz) mos moz
        + (gas + calculate_message_call_gas_stipend value) } :=
  ⟨call_fail_balance_eq proc evm gas w value mis miz mos moz rest hstack
    hgasCall hbal,
   callcode_fail_balance_eq proc evm gas w value mis miz mos moz rest hstack
    hgasCode hbal⟩

theorem c1_witness :
    (call sampleProcessor c1Evm = Except.ok { c1Evm with
      stack := 0 :: []
      memory := callExtendedMemory c1Evm 0 0 0 0
      gas_left := c1Evm.gas_left
        - calculate_call_gas_cost c1Evm.env.state 5 (to_address 7) 60
        - calculate_gas_extend_memory c1Evm.memory 0 0
        - calculate_gas_extend_memory (extend_memory c1Evm.memory 0 0) 0 0
        + (5 + calculate_message_call_gas_stipend 60) })
    ∧ (callcode sampleProcessor c1Evm = Except.ok { c1Evm with
      stack := 0 :: []
      memory := callExtendedMemory c1Evm 0 0 0 0
      gas_left := c1Evm.gas_left
        - calculate_call_gas_cost c1Evm.env.state 5
            c1Evm.message.current_target 60
        - calculate_gas_extend_memory c1Evm.memory 0 0
        - calculate_gas_extend_memory (extend_memory c1Evm.memory 0 0) 0 0
        + (5 + calculate_message_call_gas_stipend 60) }) :=
  c1_insufficient_balance_refund sampleProcessor c1Evm 5 7 60 0 0 0 0 []
    rfl (by decide) (by decide) (by decide)

/-! ### Claim C3 -/

/-- C3: depth guard for CREATE, CALL and CALLCODE.  First part: when
the parent depth plus one exceeds the configured limit (and the earlier
pops, charges and balance checks pass), each handler pushes 0 and never
invokes the recursive processing — the result does not depend on the
processor — with CALL/CALLCODE also refunding message_call_gas_fee.
Second part: at parent depth = limit − 1 the sub-call recurses
normally. -/
theorem c3_depth_guard :
    (∀ (proc : Processor) (evm : Evm) (x1 x2 x3 x4 x5 x6 x7 : Nat)
      (rest : List Nat),
      evm.stack = x1 :: x2 :: x3 :: x4 :: x5 :: x6 :: x7 :: rest →
      createGasCost evm x2 x3 ≤ evm.gas_left →
      calculate_call_gas_cost evm.env.state x1 (to_address x2) x3
        + callMemoryFees evm x4 x5 x6 x7 ≤ evm.gas_left →
      calculate_call_gas_cost evm.env.state x1 evm.message.current_target x3
        + callMemoryFees evm x4 x5 x6 x7 ≤ evm.gas_left →
      ¬ (get_account evm.env.state evm.env.origin).balance < x1 →
      ¬ (get_account evm.env.state evm.message.current_target).balance < x3 →
      evm.message.depth + 1 > STACK_DEPTH_LIMIT →
      create proc evm = Except.ok { evm with
        stack := 0 :: x4 :: x5 :: x6 :: x7 :: rest
        memory := extend_memory evm.memory x2 x3
        gas_left := evm.gas_left - createGasCost evm x2 x3 }
      ∧ call proc evm = Except.ok { evm with
        stack := 0 :: rest
        memory := callExtendedMemory evm x4 x5 x6 x7
        gas_left := evm.gas_left
          - calculate_call_gas_cost evm.env.state x1 (to_address x2) x3
          - calculate_gas_extend_memory evm.memory x4 x5
          - calculate_gas_extend_memory (extend_memory evm.memory x4 x5) x6 x7
          + (x1 + calculate_message_call_gas_stipend x3) }
      ∧ callcode proc evm = Except.ok { evm with
        stack := 0 :: rest
        memory := callExtendedMemory evm x4 x5 x6 x7
        gas_left := evm.gas_left
          - calculate_call_gas_cost evm.env.state x1
              evm.message.current_target x3
          - calculate_gas_extend_memory evm.memory x4 x5
          - calculate_gas_extend_memory (extend_memory evm.memory x4 x5) x6 x7
          + (x1 + calculate_message_call_gas_stipend x3) })
    ∧ (∀ (proc : Processor) (evm : Evm) (x1 x2 x3 x4 x5 x6 x7 : Nat)
      (rest : List Nat),
      evm.stack = x1 :: x2 :: x3 :: x4 :: x5 :: x6 :: x7 :: rest →
      createGasCost evm x2 x3 ≤ evm.gas_left →
      calculate_call_gas_cost evm.env.state x1 (to_address x2) x3
        + callMemoryFees evm x4 x5 x6 x7 ≤ evm.gas_left →
      calculate_call_gas_cost evm.env.state x1 evm.message.current_target x3
        + callMemoryFees evm x4 x5 x6 x7 ≤ evm.gas_left →
      ¬ (get_account evm.env.state evm.env.origin).balance < x1 →
      ¬ (get_account evm.env.state evm.message.current_target).balance < x3 →
      evm.message.depth = STACK_DEPTH_LIMIT - 1 →
      create proc evm = Except.ok { evm with
        stack := (proc (createChildMessage evm x1 x2 x3)
          (createChildEnv evm)).message.current_target
          :: x4 :: x5 :: x6 :: x7 :: rest
        memory := extend_memory evm.memory x2 x3
        gas_left := (proc (createChildMessage evm x1 x2 x3)
          (createChildEnv evm)).gas_left
        env := (proc (createChildMessage evm x1 x2 x3)
          (createChildEnv evm)).env }
      ∧ call proc evm = Except.ok { evm with
        stack := 1 :: rest
        memory := memory_write (callExtendedMemory evm x4 x5 x6 x7) x6
          ((proc (callChildMessage evm x1 x2 x3 x4 x5 x6 x7)
            evm.env).output.take
            (min x7 (proc (callChildMessage evm x1 x2 x3 x4 x5 x6 x7)
              evm.env).output.length))
        gas_left := evm.gas_left
          - calculate_call_gas_cost evm.env.state x1 (to_address x2) x3
          - calculate_gas_extend_memory evm.memory x4 x5
          - calculate_gas_extend_memory (extend_memory evm.memory x4 x5) x6 x7
          + (proc (callChildMessage evm x1 x2 x3 x4 x5 x6 x7)
            evm.env).gas_left
        env := (proc (callChildMessage evm x1 x2 x3 x4 x5 x6 x7)
          evm.env).env }
      ∧ callcode proc evm = Except.ok { evm with
        stack := 1 :: rest
        memory := memory_write (callExtendedMemory evm x4 x5 x6 x7) x6
          ((proc (callcodeChildMessage evm x1 x2 x3 x4 x5 x6 x7)
            evm.env).output.take
            (min x7 (proc (callcodeChildMessage evm x1 x2 x3 x4 x5 x6 x7)
              evm.env).output.length))
        gas_left := evm.gas_left
          - calculate_call_gas_cost evm.env.state x1
              evm.message.current_target x3
          - calculate_gas_extend_memory evm.memory x4 x5
          - calculate_gas_extend_memory (extend_memory evm.memory x4 x5) x6 x7
          + (proc (callcodeChildMessage evm x1 x2 x3 x4 x5 x6 x7)
            evm.env).gas_left
        env := (proc (callcodeChildMessage evm x1 x2 x3 x4 x5 x6 x7)
          evm.env).env }) := by
  constructor
  · intro proc evm x1 x2 x3 x4 x5 x6 x7 rest hstack hg1 hg2 hg3 hb1 hb2 hd
    exact ⟨create_fail_depth_eq proc evm x1 x2 x3 (x4 :: x5 :: x6 :: x7 :: rest)
        hstack hg1 hb1 hd,
      call_fail_depth_eq proc evm x1 x2 x3 x4 x5 x6 x7 rest hstack hg2 hb2 hd,
      callcode_fail_depth_eq proc evm x1 x2 x3 x4 x5 x6 x7 rest hstack hg3
        hb2 hd⟩
  · intro proc evm x1 x2 x3 x4 x5 x6 x7 rest hstack hg1 hg2 hg3 hb1 hb2 hd
    have hlim : STACK_DEPTH_LIMIT = 1024 := rfl
    have hd' : ¬ evm.message.depth + 1 > STACK_DEPTH_LIMIT := by omega
    exact ⟨create_ok_eq proc evm x1 x2 x3 (x4 :: x5 :: x6 :: x7 :: rest)
        hstack hg1 hb1 hd',
      call_ok_eq proc evm x1 x2 x3 x4 x5 x6 x7 rest hstack hg2 hb2 hd',
      callcode_ok_eq proc evm x1 x2 x3 x4 x5 x6 x7 rest hstack hg3 hb2 hd'⟩

/-- A frame at parent depth 1024 (child depth 1025 would exceed the
limit), with admissible gas and balances. -/
def c3DeepEvm : Evm := { baseEvm with
  stack := [1, 3, 2, 0, 0, 0, 0]
  message := { baseMessage with depth := 1024 } }

/-- The same frame at parent depth 1023 = limit − 1: the deepest depth
from which a sub-call still recurses. -/
def c3EdgeEvm : Evm := { baseEvm with
  stack := [1, 3, 2, 0, 0, 0, 0]
  message := { baseMessage with depth := 1023 } }

theorem c3_witness :
    (create sampleProcessor c3DeepEvm = Except.ok { c3DeepEvm with
      stack := 0 :: 0 :: 0 :: 0 :: 0 :: []
      memory := extend_memory c3DeepEvm.memory 3 2
      gas_left := c3DeepEvm.gas_left - createGasCost c3DeepEvm 3 2 }
    ∧ call sampleProcessor c3DeepEvm = Except.ok { c3DeepEvm with
      stack := 0 :: []
      memory := callExtendedMemory c3DeepEvm 0 0 0 0
      gas_left := c3DeepEvm.gas_left
        - calculate_call_gas_cost c3DeepEvm.env.state 1 (to_address 3) 2
        - calculate_gas_extend_memory c3DeepEvm.memory 0 0
        - calculate_gas_extend_memory (extend_memory c3DeepEvm.memory 0 0) 0 0
        + (1 + calculate_message_call_gas_stipend 2) }
    ∧ callcode sampleProcessor c3DeepEvm = Except.ok { c3DeepEvm with
      stack := 0 :: []
      memory := callExtendedMemory c3DeepEvm 0 0 0 0
      gas_left := c3DeepEvm.gas_left
        - calculate_call_gas_cost c3DeepEvm.env.state 1
            c3DeepEvm.message.current_target 2
        - calculate_gas_extend_memory c3DeepEvm.memory 0 0
        - calculate_gas_extend_memory (extend_memory c3DeepEvm.memory 0 0) 0 0
        + (1 + calculate_message_call_gas_stipend 2) })
    ∧ (create sampleProcessor c3EdgeEvm = Except.ok { c3EdgeEvm with
      stack := (sampleProcessor (createChildMessage c3EdgeEvm 1 3 2)
        (createChildEnv c3EdgeEvm)).message.current_target
        :: 0 :: 0 :: 0 :: 0 :: []
      memory := extend_memory c3EdgeEvm.memory 3 2
      gas_left := (sampleProcessor (createChildMessage c3EdgeEvm 1 3 2)
        (createChildEnv c3EdgeEvm)).gas_left
      env := (sampleProcessor (createChildMessage c3EdgeEvm 1 3 2)
        (createChildEnv c3EdgeEvm)).env }
    ∧ call sampleProcessor c3EdgeEvm = Except.ok { c3EdgeEvm with
      stack := 1 :: []
      memory := memory_write (callExtendedMemory c3EdgeEvm 0 0 0 0) 0
        ((sampleProcessor (callChildMessage c3EdgeEvm 1 3 2 0 0 0 0)
          c3EdgeEvm.env).output.take
          (min 0 (sampleProcessor (callChildMessage c3EdgeEvm 1 3 2 0 0 0 0)
            c3EdgeEvm.env).output.length))
      gas_left := c3EdgeEvm.gas_left
        - calculate_call_gas_cost c3EdgeEvm.env.state 1 (to_address 3) 2
        - calculate_gas_extend_memory c3EdgeEvm.memory 0 0
        - calculate_gas_extend_memory (extend_memory c3EdgeEvm.memory 0 0) 0 0
        + (sampleProcessor (callChildMessage c3EdgeEvm 1 3 2 0 0 0 0)
          c3EdgeEvm.env).gas_left
      env := (sampleProcessor (callChildMessage c3EdgeEvm 1 3 2 0 0 0 0)
        c3EdgeEvm.env).env }
    ∧ callcode sampleProcessor c3EdgeEvm = Except.ok { c3EdgeEvm with
      stack := 1 :: []
      memory := memory_write (callExtendedMemory c3EdgeEvm 0 0 0 0) 0
        ((sampleProcessor (callcodeChildMessage c3EdgeEvm 1 3 2 0 0 0 0)
          c3EdgeEvm.env).output.take
          (min 0
            (sampleProcessor (callcodeChildMessage c3EdgeEvm 1 3 2 0 0 0 0)
              c3EdgeEvm.env).output.length))
      gas_left := c3EdgeEvm.gas_left
        - calculate_call_gas_cost c3EdgeEvm.env.state 1
            c3EdgeEvm.message.current_target 2
        - calculate_gas_extend_memory c3EdgeEvm.memory 0 0
        - calculate_gas_extend_memory (extend_memory c3EdgeEvm.memory 0 0) 0 0
        + (sampleProcessor (callcodeChildMessage c3EdgeEvm 1 3 2 0 0 0 0)
          c3EdgeEvm.env).gas_left
      env := (sampleProcessor (callcodeChildMessage c3EdgeEvm 1 3 2 0 0 0 0)
        c3EdgeEvm.env).env }) :=
  ⟨c3_depth_guard.1 sampleProcessor c3DeepEvm 1 3 2 0 0 0 0 [] rfl
    (by decide) (by decide) (by decide) (by decide) (by decide) (by decide),
   c3_depth_guard.2 sampleProcessor c3EdgeEvm 1 3 2 0 0 0 0 [] rfl
    (by decide) (by decide) (by decide) (by decide) (by decide) rfl⟩

/-! ### Nonce increment and address derivation -/

theorem get_account_map_bump (s : State) (a : Address) :
    get_account (s.map (fun p =>
      if p.1 == a then (p.1, { p.2 with nonce := p.2.nonce + 1 }) else p)) a
    = if account_exists s a
      then { get_account s a with nonce := (get_account s a).nonce + 1 }
      else emptyAccount := by
  have hf : ((fun p : Address × Account => p.1 == a) ∘ fun p =>
      if p.1 == a then (p.1, { p.2 with nonce := p.2.nonce + 1 }) else p)
      = fun p : Address × Account => p.1 == a := by
    funext p
    by_cases h : p.1 == a <;> simp [Function.comp, h]
  unfold get_account account_exists
  rw [List.find?_map, hf]
  cases hq : s.find? (fun p => p.1 == a) with
  | none => simp
  | some q =>
    have hqa := List.find?_some hq
    have hq1 : q.1 = a := by simpa using hqa
    simp [hq1]

theorem get_account_increment_nonce (s : State) (a : Address) :
    get_account (increment_nonce s a) a
      = { get_account s a with nonce := (get_account s a).nonce + 1 } := by
  unfold increment_nonce
  by_cases h : account_exists s a
  · rw [if_pos h, get_account_map_bump, if_pos h]
  · rw [if_neg h]
    have hget : get_account s a = emptyAccount := by
      unfold get_account
      unfold account_exists at h
      cases hf : s.find? (fun p => p.1 == a) with
      | none => rfl
      | some p =>
        rw [hf] at h
        simp at h
    rw [hget]
    simp [get_account, List.find?, emptyAccount]

theorem createDerivedAddress_eq (evm : Evm) :
    createDerivedAddress evm
      = compute_contract_address evm.message.current_target
          (get_account evm.env.state evm.message.current_target).nonce := by
  unfold createDerivedAddress
  rw [get_account_increment_nonce]
  simp

/-! ### Claim C4 -/

/-- C4: for every CREATE execution that passes the balance and depth
checks, the parent's gas_left goes to 0 before the recursive call (the
source charges `subtract_gas g1 g1`, which succeeds with 0); the child
Message carries gas equal to the parent's entire gas_left after the
creation charge, caller = the parent's current account, empty target,
empty data, value = the popped endowment, code = the initialization
bytes read from memory, current_target = the derived address, and
depth = parent depth + 1; after the child returns, the parent's
gas_left equals the child frame's gas_left. -/
theorem c4_create_forwards_all_gas (proc : Processor) (evm : Evm)
    (endowment p n : Nat) (rest : List Nat)
    (hstack : evm.stack = endowment :: p :: n :: rest)
    (hgas : createGasCost evm p n ≤ evm.gas_left)
    (hbal : ¬ (get_account evm.env.state evm.env.origin).balance < endowment)
    (hdepth : ¬ evm.message.depth + 1 > STACK_DEPTH_LIMIT) :
    create proc evm = Except.ok { evm with
      stack := (proc (createChildMessage evm endowment p n)
        (createChildEnv evm)).message.current_target :: rest
      memory := extend_memory evm.memory p n
      gas_left := (proc (createChildMessage evm endowment p n)
        (createChildEnv evm)).gas_left
      env := (proc (createChildMessage evm endowment p n)
        (createChildEnv evm)).env }
    ∧ (createChildMessage evm endowment p n).gas
        = evm.gas_left - createGasCost evm p n
    ∧ subtract_gas (evm.gas_left - createGasCost evm p n)
        (evm.gas_left - createGasCost evm p n) = Except.ok 0
    ∧ (createChildMessage evm endowment p n).caller
        = evm.message.current_target
    ∧ (createChildMessage evm endowment p n).target = none
    ∧ (createChildMessage evm endowment p n).data = []
    ∧ (createChildMessage evm endowment p n).value = endowment
    ∧ (createChildMessage evm endowment p n).code
        = memory_read_bytes (extend_memory evm.memory p n) p n
    ∧ (createChildMessage evm endowment p n).current_target
        = createDerivedAddress evm
    ∧ (createChildMessage evm endowment p n).depth = evm.message.depth + 1 :=
  ⟨create_ok_eq proc evm endowment p n rest hstack hgas hbal hdepth,
    rfl, subtract_gas_self _, rfl, rfl, rfl, rfl, rfl, rfl, rfl⟩

/-- A CREATE frame popping endowment 7, memory start 64, size 2. -/
def c4Evm : Evm := { baseEvm with stack := [7, 64, 2] }

theorem c4_witness :
    createGasCost c4Evm 64 2 ≤ c4Evm.gas_left
    ∧ create sampleProcessor c4Evm = Except.ok { c4Evm with
      stack := (sampleProcessor (createChildMessage c4Evm 7 64 2)
        (createChildEnv c4Evm)).message.current_target :: []
      memory := extend_memory c4Evm.memory 64 2
      gas_left := (sampleProcessor (createChildMessage c4Evm 7 64 2)
        (createChildEnv c4Evm)).gas_left
      env := (sampleProcessor (createChildMessage c4Evm 7 64 2)
        (createChildEnv c4Evm)).env }
    ∧ (createChildMessage c4Evm 7 64 2).gas
        = c4Evm.gas_left - createGasCost c4Evm 64 2 :=
  ⟨by decide,
    (c4_create_forwards_all_gas sampleProcessor c4Evm 7 64 2 [] rfl
      (by decide) (by decide) (by decide)).1,
    (c4_create_forwards_all_gas sampleProcessor c4Evm 7 64 2 [] rfl
      (by decide) (by decide) (by decide)).2.1⟩

/-! ### Claim C5 -/

/-- C5: for every CREATE execution that passes the balance and depth
checks, the nonce of the frame's current account is incremented exactly
once, unconditionally — the environment handed to the recursive
creation (for an arbitrary processor, hence even when the creation
fails) carries exactly one application of `increment_nonce`, raising
the nonce by exactly one — and the new contract address is
`compute_contract_address` of the creating account and the nonce value
just prior to that increment. -/
theorem c5_create_increments_nonce_once (proc : Processor) (evm : Evm)
    (endowment p n : Nat) (rest : List Nat)
    (hstack : evm.stack = endowment :: p :: n :: rest)
    (hgas : createGasCost evm p n ≤ evm.gas_left)
    (hbal : ¬ (get_account evm.env.state evm.env.origin).balance < endowment)
    (hdepth : ¬ evm.message.depth + 1 > STACK_DEPTH_LIMIT) :
    create proc evm = Except.ok { evm with
      stack := (proc (createChildMessage evm endowment p n)
        (createChildEnv evm)).message.current_target :: rest
      memory := extend_memory evm.memory p n
      gas_left := (proc (createChildMessage evm endowment p n)
        (createChildEnv evm)).gas_left
      env := (proc (createChildMessage evm endowment p n)
        (createChildEnv evm)).env }
    ∧ (createChildEnv evm).state
        = increment_nonce evm.env.state evm.message.current_target
    ∧ (get_account (createChildEnv evm).state
        evm.message.current_target).nonce
        = (get_account evm.env.state evm.message.current_target).nonce + 1
    ∧ (createChildMessage evm endowment p n).current_target
        = compute_contract_address evm.message.current_target
            (get_account evm.env.state evm.message.current_target).nonce :=
  ⟨create_ok_eq proc evm endowment p n rest hstack hgas hbal hdepth,
    rfl,
    by simp [createChildEnv, get_account_increment_nonce],
    by simp [createChildMessage, createDerivedAddress_eq]⟩

theorem c5_witness :
    create sampleProcessor c2OkEvm = Except.ok { c2OkEvm with
      stack := (sampleProcessor (createChildMessage c2OkEvm 30 0 0)
        (createChildEnv c2OkEvm)).message.current_target :: []
      memory := extend_memory c2OkEvm.memory 0 0
      gas_left := (sampleProcessor (createChildMessage c2OkEvm 30 0 0)
        (createChildEnv c2OkEvm)).gas_left
      env := (sampleProcessor (createChildMessage c2OkEvm 30 0 0)
        (createChildEnv c2OkEvm)).env }
    ∧ (get_account (createChildEnv c2OkEvm).state
        c2OkEvm.message.current_target).nonce
        = (get_account c2OkEvm.env.state c2OkEvm.message.current_target).nonce
          + 1
    ∧ (createChildMessage c2OkEvm 30 0 0).current_target
        = compute_contract_address c2OkEvm.message.current_target
            (get_account c2OkEvm.env.state
              c2OkEvm.message.current_target).nonce :=
  ⟨(c5_create_increments_nonce_once sampleProcessor c2OkEvm 30 0 0 [] rfl
      (by decide) (by decide) (by decide)).1,
   (c5_create_increments_nonce_once sampleProcessor c2OkEvm 30 0 0 [] rfl
      (by decide) (by decide) (by decide)).2.2.1,
   (c5_create_increments_nonce_once sampleProcessor c2OkEvm 30 0 0 [] rfl
      (by decide) (by decide) (by decide)).2.2.2⟩

/-! ### Claim C6 -/

theorem take_min_length (l : List Nat) (k : Nat) :
    (l.take (min k l.length)).length = min k l.length := by
  simp only [List.length_take]
  omega

/-- C6: for every CALL or CALLCODE execution that reaches the recursive
invocation, whatever terminal child frame the processor returns, the
handler pushes the word 1 onto the stack unconditionally, copies
exactly min(memory_output_size, length of the child's output) bytes
from the child's output into parent memory at memory_output_start, and
adds the child frame's gas_left to the parent's gas_left. -/
theorem c6_call_result_merge (proc : Processor) (evm : Evm)
    (gas w value mis miz mos moz : Nat) (rest : List Nat)
    (hstack : evm.stack
      = gas :: w :: value :: mis :: miz :: mos :: moz :: rest)
    (hgasCall : calculate_call_gas_cost evm.env.state gas (to_address w) value
      + callMemoryFees evm mis miz mos moz ≤ evm.gas_left)
    (hgasCode : calculate_call_gas_cost evm.env.state gas
        evm.message.current_target value
      + callMemoryFees evm mis miz mos moz ≤ evm.gas_left)
    (hbal : ¬ (get_account evm.env.state evm.message.current_target).balance
      < value)
    (hdepth : ¬ evm.message.depth + 1 > STACK_DEPTH_LIMIT) :
    call proc evm = Except.ok { evm with
      stack := 1 :: rest
      memory := memory_write (callExtendedMemory evm mis miz mos moz) mos
        ((proc (callChildMessage evm gas w value mis miz mos moz)
          evm.env).output.take
          (min moz (proc (callChildMessage evm gas w value mis miz mos moz)
            evm.env).output.length))
      gas_left := evm.gas_left
        - calculate_call_gas_cost evm.env.state gas (to_address w) value
        - calculate_gas_extend_memory evm.memory mis miz
        - calculate_gas_extend_memory (extend_memory evm.memory mis miz) mos moz
        + (proc (callChildMessage evm gas w value mis miz mos moz)
          evm.env).gas_left
      env := (proc (callChildMessage evm gas w value mis miz mos moz)
        evm.env).env }
    ∧ ((proc (callChildMessage evm gas w value mis miz mos moz)
        evm.env).output.take
        (min moz (proc (callChildMessage evm gas w value mis miz mos moz)
          evm.env).output.length)).length
      = min moz (proc (callChildMessage evm gas w value mis miz mos moz)
        evm.env).output.length
    ∧ callcode proc evm = Except.ok { evm with
      stack := 1 :: rest
      memory := memory_write (callExtendedMemory evm mis miz mos moz) mos
        ((proc (callcodeChildMessage evm gas w value mis miz mos moz)
          evm.env).output.take
          (min moz
            (proc (callcodeChildMessage evm gas w value mis miz mos moz)
              evm.env).output.length))
      gas_left := evm.gas_left
        - calculate_call_gas_cost evm.env.state gas
            evm.message.current_target value
        - calculate_gas_extend_memory evm.memory mis miz
        - calculate_gas_extend_memory (extend_memory evm.memory mis miz) mos moz
        + (proc (callcodeChildMessage evm gas w value mis miz mos moz)
          evm.env).gas_left
      env := (proc (callcodeChildMessage evm gas w value mis miz mos moz)
        evm.env).env }
    ∧ ((proc (callcodeChildMessage evm gas w value mis miz mos moz)
        evm.env).output.take
        (min moz (proc (callcodeChildMessage evm gas w value mis miz mos moz)
          evm.env).output.length)).length
      = min moz (proc (callcodeChildMessage evm gas w value mis miz mos moz)
        evm.env).output.length :=
  ⟨call_ok_eq proc evm gas w value mis miz mos moz rest hstack hgasCall
      hbal hdepth,
    take_min_length _ _,
    callcode_ok_eq proc evm gas w value mis miz mos moz rest hstack hgasCode
      hbal hdepth,
    take_min_length _ _⟩

/-- A CALL frame popping gas 100, target word 2 (an existing account),
value 1, empty input region, and a five-byte output region at 0. -/
def c6Evm : Evm := { baseEvm with stack := [100, 2, 1, 0, 0, 0, 5] }

theorem c6_witness :
    (call sampleProcessor c6Evm = Except.ok { c6Evm with
      stack := 1 :: []
      memory := memory_write (callExtendedMemory c6Evm 0 0 0 5) 0
        ((sampleProcessor (callChildMessage c6Evm 100 2 1 0 0 0 5)
          c6Evm.env).output.take
          (min 5 (sampleProcessor (callChildMessage c6Evm 100 2 1 0 0 0 5)
            c6Evm.env).output.length))
      gas_left := c6Evm.gas_left
        - calculate_call_gas_cost c6Evm.env.state 100 (to_address 2) 1
        - calculate_gas_extend_memory c6Evm.memory 0 0
        - calculate_gas_extend_memory (extend_memory c6Evm.memory 0 0) 0 5
        + (sampleProcessor (callChildMessage c6Evm 100 2 1 0 0 0 5)
          c6Evm.env).gas_left
      env := (sampleProcessor (callChildMessage c6Evm 100 2 1 0 0 0 5)
        c6Evm.env).env })
    ∧ ((sampleProcessor (callChildMessage c6Evm 100 2 1 0 0 0 5)
        c6Evm.env).output.take
        (min 5 (sampleProcessor (callChildMessage c6Evm 100 2 1 0 0 0 5)
          c6Evm.env).output.length)).length
      = min 5 (sampleProcessor (callChildMessage c6Evm 100 2 1 0 0 0 5)
        c6Evm.env).output.length :=
  ⟨(c6_call_result_merge sampleProcessor c6Evm 100 2 1 0 0 0 5 [] rfl
      (by decide) (by decide) (by decide) (by decide)).1,
   (c6_call_result_merge sampleProcessor c6Evm 100 2 1 0 0 0 5 [] rfl
      (by decide) (by decide) (by decide) (by decide)).2.1⟩

/-! ### Claim C7 -/

/-- Modelled from the spec: CALLCODE as section 4.7 of the
specification describes it — CALL's procedure with identical argument
order, gas accounting, memory handling, balance and depth checks and
result merging, except that the address popped in second position is a
code address used only to fetch the executed code, while the call
target — and with it the child Message's target and current_target, and
the account assessed for the call gas surcharges — is the frame's own
current account. -/
def callcodeFromSpec (process_message : Processor) (evm : Evm) :
    Except EvmError Evm := do
  let (gas, s1) ← pop evm.stack
  let (codeWord, s2) ← pop s1
  let code_address := to_address codeWord
  let (value, s3) ← pop s2
  let (memory_input_start_position, s4) ← pop s3
  let (memory_input_size, s5) ← pop s4
  let (memory_output_start_position, s6) ← pop s5
  let (memory_output_size, s7) ← pop s6
  let toAddr := evm.message.current_target
  let call_gas_fee := calculate_call_gas_cost evm.env.state gas toAddr value
  let message_call_gas_fee := gas + calculate_message_call_gas_stipend value
  let g1 ← subtract_gas evm.gas_left call_gas_fee
  let gas_input_memory := calculate_gas_extend_memory evm.memory
    memory_input_start_position memory_input_size
  let g2 ← subtract_gas g1 gas_input_memory
  let mem1 := extend_memory evm.memory memory_input_start_position
    memory_input_size
  let gas_output_memory := calculate_gas_extend_memory mem1
    memory_output_start_position memory_output_size
  let g3 ← subtract_gas g2 gas_output_memory
  let mem2 := extend_memory mem1 memory_output_start_position
    memory_output_size
  let call_data := memory_read_bytes mem2 memory_input_start_position
    memory_input_size
  let sender_balance := (get_account evm.env.state
    evm.message.current_target).balance
  if sender_balance < value then
    return { evm with
      stack := push s7 0
      memory := mem2
      gas_left := g3 + message_call_gas_fee }
  if evm.message.depth + 1 > STACK_DEPTH_LIMIT then
    return { evm with
      stack := push s7 0
      memory := mem2
      gas_left := g3 + message_call_gas_fee }
  let code := (get_account evm.env.state code_address).code
  let child_message : Message :=
    { caller := evm.message.current_target
      target := some toAddr
      gas := message_call_gas_fee
      value := value
      data := call_data
      code := code
      current_target := toAddr
      depth := evm.message.depth + 1 }
  let child_evm := process_message child_message evm.env
  let actual_output_size := min memory_output_size child_evm.output.length
  return { evm with
    stack := push s7 1
    memory := memory_write mem2 memory_output_start_position
      (child_evm.output.take actual_output_size)
    gas_left := g3 + child_evm.gas_left
    env := child_evm.env }

/-- C7: the source `callcode` coincides with the specification's
description of CALLCODE as CALL-plus-delta (`callcodeFromSpec`) on
every frame and every processor; moreover the child Message CALLCODE
builds differs from CALL's in exactly the three stated fields: target
and current_target are the parent's own current account, and the code
is fetched from the separately popped code address. -/
theorem c7_callcode_refines_call :
    (∀ (proc : Processor) (evm : Evm),
      callcode proc evm = callcodeFromSpec proc evm)
    ∧ (∀ (evm : Evm) (gas w value mis miz mos moz : Nat),
      callcodeChildMessage evm gas w value mis miz mos moz
        = { callChildMessage evm gas w value mis miz mos moz with
            target := some evm.message.current_target
            current_target := evm.message.current_target
            code := (get_account evm.env.state (to_address w)).code }) :=
  ⟨fun _ _ => rfl, fun _ _ _ _ _ _ _ _ => rfl⟩

/-! ### Claim C8 -/

/-- C8: for every RETURN execution on a frame whose stack holds at
least two words and whose gas covers the charge, the handler pops
memory_start and memory_size, charges the zero base cost plus the
memory-extension cost, extends memory, sets the output buffer to
exactly the bytes of the addressed region, and sets running to false;
with memory_size = 0 the frame halts with an empty output buffer,
unchanged memory and gas, and running = false regardless of the start
offset. -/
theorem c8_return_halts (evm : Evm) :
    (∀ (p n : Nat) (rest : List Nat),
      evm.stack = p :: n :: rest →
      GAS_ZERO + calculate_gas_extend_memory evm.memory p n ≤ evm.gas_left →
      return_ evm = Except.ok { evm with
        stack := rest
        memory := extend_memory evm.memory p n
        gas_left := evm.gas_left
          - (GAS_ZERO + calculate_gas_extend_memory evm.memory p n)
        output := memory_read_bytes (extend_memory evm.memory p n) p n
        running := false })
    ∧ (∀ (p : Nat) (rest : List Nat),
      evm.stack = p :: 0 :: rest →
      return_ evm = Except.ok { evm with
        stack := rest
        output := []
        running := false }) := by
  constructor
  · exact return_ok_eq evm
  · intro p rest hstack
    have h := return_ok_eq evm p 0 rest hstack
      (by simp [GAS_ZERO, calculate_gas_extend_memory])
    simpa [GAS_ZERO, calculate_gas_extend_memory, extend_memory,
      memory_read_bytes] using h

/-- A RETURN frame popping start 3 and size 2. -/
def c8Evm : Evm := { baseEvm with stack := [3, 2, 8] }

/-- A RETURN frame popping start 77 and size 0. -/
def c8ZeroEvm : Evm := { baseEvm with stack := [77, 0] }

theorem c8_witness :
    (return_ c8Evm = Except.ok { c8Evm with
      stack := [8]
      memory := extend_memory c8Evm.memory 3 2
      gas_left := c8Evm.gas_left
        - (GAS_ZERO + calculate_gas_extend_memory c8Evm.memory 3 2)
      output := memory_read_bytes (extend_memory c8Evm.memory 3 2) 3 2
      running := false })
    ∧ (return_ c8ZeroEvm = Except.ok { c8ZeroEvm with
      stack := []
      output := []
      running := false }) :=
  ⟨(c8_return_halts c8Evm).1 3 2 [8] rfl (by decide),
   (c8_return_halts c8ZeroEvm).2 77 [] rfl⟩

/-! ### Claim C9 -/

theorem subtract_gas_of_lt {g a : Nat} (h : g < a) :
    subtract_gas g a = .error .OutOfGas := by
  simp [subtract_gas, h]

theorem except_bind_error {α β : Type} (f : α → Except EvmError β)
    (err : EvmError) :
    (Except.error err : Except EvmError α) >>= f = Except.error err := rfl

theorem create_preserves_running_output (proc : Processor) (evm e : Evm)
    (h : create proc evm = Except.ok e) :
    e.running = evm.running ∧ e.output = evm.output := by
  rcases hs : evm.stack with _ | ⟨x1, _ | ⟨x2, _ | ⟨x3, s3⟩⟩⟩
  · simp only [create, hs, pop_nil, except_bind_error] at h
    simp at h
  · simp only [create, hs, pop_cons, except_bind_ok, pop_nil,
      except_bind_error] at h
    simp at h
  · simp only [create, hs, pop_cons, except_bind_ok, pop_nil,
      except_bind_error] at h
    simp at h
  · by_cases hg : GAS_CREATE + calculate_gas_extend_memory evm.memory x2 x3
        ≤ evm.gas_left
    · by_cases hbal :
          (get_account evm.env.state evm.env.origin).balance < x1
      · rw [create_fail_balance_eq proc evm x1 x2 x3 s3 hs hg hbal] at h
        injection h with h
        subst h
        exact ⟨rfl, rfl⟩
      · by_cases hdepth : evm.message.depth + 1 > STACK_DEPTH_LIMIT
        · rw [create_fail_depth_eq proc evm x1 x2 x3 s3 hs hg hbal hdepth] at h
          injection h with h
          subst h
          exact ⟨rfl, rfl⟩
        · rw [create_ok_eq proc evm x1 x2 x3 s3 hs hg hbal hdepth] at h
          injection h with h
          subst h
          exact ⟨rfl, rfl⟩
    · have hlt : evm.gas_left
          < GAS_CREATE + calculate_gas_extend_memory evm.memory x2 x3 := by
        omega
      simp only [create, hs, pop_cons, except_bind_ok,
        subtract_gas_of_lt hlt, except_bind_error] at h
      simp at h

theorem call_preserves_running_output (proc : Processor) (evm e : Evm)
    (h : call proc evm = Except.ok e) :
    e.running = evm.running ∧ e.output = evm.output := by
  rcases hs : evm.stack with _ | ⟨x1, _ | ⟨x2, _ | ⟨x3, _ | ⟨x4, _ | ⟨x5,
    _ | ⟨x6, _ | ⟨x7, s7⟩⟩⟩⟩⟩⟩⟩
  · simp only [call, hs, pop_nil, except_bind_error] at h
    simp at h
  · simp only [call, hs, pop_cons, except_bind_ok, pop_nil,
      except_bind_error] at h
    simp at h
  · simp only [call, hs, pop_cons, except_bind_ok, pop_nil,
      except_bind_error] at h
    simp at h
  · simp only [call, hs, pop_cons, except_bind_ok, pop_nil,
      except_bind_error] at h
    simp at h
  · simp only [call, hs, pop_cons, except_bind_ok, pop_nil,
      except_bind_error] at h
    simp at h
  · simp only [call, hs, pop_cons, except_bind_ok, pop_nil,
      except_bind_error] at h
    simp at h
  · simp only [call, hs, pop_cons, except_bind_ok, pop_nil,
      except_bind_error] at h
    simp at h
  · by_cases hg1 : calculate_call_gas_cost evm.env.state x1 (to_address x2) x3
        ≤ evm.gas_left
    · by_cases hg2 : calculate_gas_extend_memory evm.memory x4 x5
          ≤ evm.gas_left
            - calculate_call_gas_cost evm.env.state x1 (to_address x2) x3
      · by_cases hg3 : calculate_gas_extend_memory
            (extend_memory evm.memory x4 x5) x6 x7
            ≤ evm.gas_left
              - calculate_call_gas_cost evm.env.state x1 (to_address x2) x3
              - calculate_gas_extend_memory evm.memory x4 x5
        · have hgas : calculate_call_gas_cost evm.env.state x1
              (to_address x2) x3
              + callMemoryFees evm x4 x5 x6 x7 ≤ evm.gas_left := by
            unfold callMemoryFees
            omega
          by_cases hbal : (get_account evm.env.state
              evm.message.current_target).balance < x3
          · rw [call_fail_balance_eq proc evm x1 x2 x3 x4 x5 x6 x7 s7 hs
              hgas hbal] at h
            injection h with h
            subst h
            exact ⟨rfl, rfl⟩
          · by_cases hdepth : evm.message.depth + 1 > STACK_DEPTH_LIMIT
            · rw [call_fail_depth_eq proc evm x1 x2 x3 x4 x5 x6 x7 s7 hs
                hgas hbal hdepth] at h
              injection h with h
              subst h
              exact ⟨rfl, rfl⟩
            · rw [call_ok_eq proc evm x1 x2 x3 x4 x5 x6 x7 s7 hs hgas hbal
                hdepth] at h
              injection h with h
              subst h
              exact ⟨rfl, rfl⟩
        · have hlt : evm.gas_left
              - calculate_call_gas_cost evm.env.state x1 (to_address x2) x3
              - calculate_gas_extend_memory evm.memory x4 x5
              < calculate_gas_extend_memory
                  (extend_memory evm.memory x4 x5) x6 x7 := by
            omega
          simp only [call, hs, pop_cons, except_bind_ok,
            subtract_gas_of_le hg1, subtract_gas_of_le hg2,
            subtract_gas_of_lt hlt, except_bind_error] at h
          simp at h
      · have hlt : evm.gas_left
            - calculate_call_gas_cost evm.env.state x1 (to_address x2) x3
            < calculate_gas_extend_memory evm.memory x4 x5 := by
          omega
        simp only [call, hs, pop_cons, except_bind_ok,
          subtract_gas_of_le hg1, subtract_gas_of_lt hlt,
          except_bind_error] at h
        simp at h
    · have hlt : evm.gas_left
          < calculate_call_gas_cost evm.env.state x1 (to_address x2) x3 := by
        omega
      simp only [call, hs, pop_cons, except_bind_ok,
        subtract_gas_of_lt hlt, except_bind_error] at h
      simp at h

theorem callcode_preserves_running_output (proc : Processor) (evm e : Evm)
    (h : callcode proc evm = Except.ok e) :
    e.running = evm.running ∧ e.output = evm.output := by
  rcases hs : evm.stack with _ | ⟨x1, _ | ⟨x2, _ | ⟨x3, _ | ⟨x4, _ | ⟨x5,
    _ | ⟨x6, _ | ⟨x7, s7⟩⟩⟩⟩⟩⟩⟩
  · simp only [callcode, hs, pop_nil, except_bind_error] at h
    simp at h
  · simp only [callcode, hs, pop_cons, except_bind_ok, pop_nil,
      except_bind_error] at h
    simp at h
  · simp only [callcode, hs, pop_cons, except_bind_ok, pop_nil,
      except_bind_error] at h
    simp at h
  · simp only [callcode, hs, pop_cons, except_bind_ok, pop_nil,
      except_bind_error] at h
    simp at h
  · simp only [callcode, hs, pop_cons, except_bind_ok, pop_nil,
      except_bind_error] at h
    simp at h
  · simp only [callcode, hs, pop_cons, except_bind_ok, pop_nil,
      except_bind_error] at h
    simp at h
  · simp only [callcode, hs, pop_cons, except_bind_ok, pop_nil,
      except_bind_error] at h
    simp at h
  · by_cases hg1 : calculate_call_gas_cost evm.env.state x1
        evm.message.current_target x3 ≤ evm.gas_left
    · by_cases hg2 : calculate_gas_extend_memory evm.memory x4 x5
          ≤ evm.gas_left - calculate_call_gas_cost evm.env.state x1
              evm.message.current_target x3
      · by_cases hg3 : calculate_gas_extend_memory
            (extend_memory evm.memory x4 x5) x6 x7
            ≤ evm.gas_left
              - calculate_call_gas_cost evm.env.state x1
                  evm.message.current_target x3
              - calculate_gas_extend_memory evm.memory x4 x5
        · have hgas : calculate_call_gas_cost evm.env.state x1
              evm.message.current_target x3
              + callMemoryFees evm x4 x5 x6 x7 ≤ evm.gas_left := by
            unfold callMemoryFees
            omega
          by_cases hbal : (get_account evm.env.state
              evm.message.current_target).balance < x3
          · rw [callcode_fail_balance_eq proc evm x1 x2 x3 x4 x5 x6 x7 s7 hs
              hgas hbal] at h
            injection h with h
            subst h
            exact ⟨rfl, rfl⟩
          · by_cases hdepth : evm.message.depth + 1 > STACK_DEPTH_LIMIT
            · rw [callcode_fail_depth_eq proc evm x1 x2 x3 x4 x5 x6 x7 s7 hs
                hgas hbal hdepth] at h
              injection h with h
              subst h
              exact ⟨rfl, rfl⟩
            · rw [callcode_ok_eq proc evm x1 x2 x3 x4 x5 x6 x7 s7 hs hgas
                hbal hdepth] at h
              injection h with h
              subst h
              exact ⟨rfl, rfl⟩
        · have hlt : evm.gas_left
              - calculate_call_gas_cost evm.env.state x1
                  evm.message.current_target x3
              - calculate_gas_extend_memory evm.memory x4 x5
              < calculate_gas_extend_memory
                  (extend_memory evm.memory x4 x5) x6 x7 := by
            omega
          simp only [callcode, hs, pop_cons, except_bind_ok,
            subtract_gas_of_le hg1, subtract_gas_of_le hg2,
            subtract_gas_of_lt hlt, except_bind_error] at h
          simp at h
      · have hlt : evm.gas_left
            - calculate_call_gas_cost evm.env.state x1
                evm.message.current_target x3
            < calculate_gas_extend_memory evm.memory x4 x5 := by
          omega
        simp only [callcode, hs, pop_cons, except_bind_ok,
          subtract_gas_of_le hg1, subtract_gas_of_lt hlt,
          except_bind_error] at h
        simp at h
    · have hlt : evm.gas_left
          < calculate_call_gas_cost evm.env.state x1
              evm.message.current_target x3 := by
        omega
      simp only [callcode, hs, pop_cons, except_bind_ok,
        subtract_gas_of_lt hlt, except_bind_error] at h
      simp at h

theorem return_sets_running_false (evm e : Evm)
    (h : return_ evm = Except.ok e) : e.running = false := by
  rcases hs : evm.stack with _ | ⟨x1, _ | ⟨x2, s2⟩⟩
  · simp only [return_, hs, pop_nil, except_bind_error] at h
    simp at h
  · simp only [return_, hs, pop_cons, except_bind_ok, pop_nil,
      except_bind_error] at h
    simp at h
  · by_cases hg : GAS_ZERO + calculate_gas_extend_memory evm.memory x1 x2
        ≤ evm.gas_left
    · rw [return_ok_eq evm x1 x2 s2 hs hg] at h
      injection h with h
      subst h
      rfl
    · have hlt : evm.gas_left
          < GAS_ZERO + calculate_gas_extend_memory evm.memory x1 x2 := by
        omega
      simp only [return_, hs, pop_cons, except_bind_ok,
        subtract_gas_of_lt hlt, except_bind_error] at h
      simp at h

/-- C9: on every non-raising execution path, CREATE, CALL and CALLCODE
leave the parent frame's running flag and output buffer unchanged;
among the four system instructions only RETURN sets running to false
(assigning the output buffer as it halts). -/
theorem c9_only_return_halts :
    (∀ (proc : Processor) (evm e : Evm), create proc evm = Except.ok e →
      e.running = evm.running ∧ e.output = evm.output)
    ∧ (∀ (proc : Processor) (evm e : Evm), call proc evm = Except.ok e →
      e.running = evm.running ∧ e.output = evm.output)
    ∧ (∀ (proc : Processor) (evm e : Evm), callcode proc evm = Except.ok e →
      e.running = evm.running ∧ e.output = evm.output)
    ∧ (∀ (evm e : Evm), return_ evm = Except.ok e → e.running = false) :=
  ⟨create_preserves_running_output, call_preserves_running_output,
    callcode_preserves_running_output, return_sets_running_false⟩

/-- The terminal frame of the failing CREATE at `c2FailEvm`. -/
def c9CreateRes : Evm := { c2FailEvm with
  stack := 0 :: [5, 6]
  memory := extend_memory c2FailEvm.memory 0 0
  gas_left := c2FailEvm.gas_left - createGasCost c2FailEvm 0 0 }

/-- The terminal frame of the failing CALL at `c1Evm`. -/
def c9CallRes : Evm := { c1Evm with
  stack := 0 :: []
  memory := callExtendedMemory c1Evm 0 0 0 0
  gas_left := c1Evm.gas_left
    - calculate_call_gas_cost c1Evm.env.state 5 (to_address 7) 60
    - calculate_gas_extend_memory c1Evm.memory 0 0
    - calculate_gas_extend_memory (extend_memory c1Evm.memory 0 0) 0 0
    + (5 + calculate_message_call_gas_stipend 60) }

/-- The terminal frame of the failing CALLCODE at `c1Evm`. -/
def c9CallcodeRes : Evm := { c1Evm with
  stack := 0 :: []
  memory := callExtendedMemory c1Evm 0 0 0 0
  gas_left := c1Evm.gas_left
    - calculate_call_gas_cost c1Evm.env.state 5 c1Evm.message.current_target 60
    - calculate_gas_extend_memory c1Evm.memory 0 0
    - calculate_gas_extend_memory (extend_memory c1Evm.memory 0 0) 0 0
    + (5 + calculate_message_call_gas_stipend 60) }

/-- The terminal frame of RETURN at `c8ZeroEvm`. -/
def c9ReturnRes : Evm := { c8ZeroEvm with
  stack := []
  output := []
  running := false }

theorem c9_witness :
    (c9CreateRes.running = c2FailEvm.running
      ∧ c9CreateRes.output = c2FailEvm.output)
    ∧ (c9CallRes.running = c1Evm.running ∧ c9CallRes.output = c1Evm.output)
    ∧ (c9CallcodeRes.running = c1Evm.running
      ∧ c9CallcodeRes.output = c1Evm.output)
    ∧ c9ReturnRes.running = false :=
  ⟨c9_only_return_halts.1 sampleProcessor c2FailEvm c9CreateRes rfl,
   c9_only_return_halts.2.1 sampleProcessor c1Evm c9CallRes rfl,
   c9_only_return_halts.2.2.1 sampleProcessor c1Evm c9CallcodeRes rfl,
   c9_only_return_halts.2.2.2 c8ZeroEvm c9ReturnRes rfl⟩

/-! ### Claim C10 -/

theorem ceil32_ge (n : Nat) : n ≤ ceil32 n := by
  unfold ceil32
  have h1 := Nat.div_add_mod (n + 31) 32
  have h2 : (n + 31) % 32 < 32 := Nat.mod_lt _ (by decide)
  omega

theorem extend_memory_covers (m : List Nat) (o s : Nat) (h : s ≠ 0) :
    o + s ≤ (extend_memory m o s).length := by
  unfold extend_memory
  rw [if_neg h, List.length_append, List.length_replicate]
  have h1 := ceil32_ge (max m.length (o + s))
  have h2 : o + s ≤ max m.length (o + s) := le_max_right _ _
  omega

theorem extend_memory_length_le (m : List Nat) (o s : Nat) :
    m.length ≤ (extend_memory m o s).length := by
  unfold extend_memory
  by_cases h : s = 0
  · simp [h]
  · simp [h]

/-- C10: on the local failure paths of CALL and CALLCODE (insufficient
balance, or — with sufficient balance — an exceeded depth limit), the
parent frame's memory has already been extended to cover both the input
and the output regions, and the call gas fee and both memory-extension
fees have already been charged before message_call_gas_fee is refunded;
neither the extension nor the charges are reversed: the resulting
gas_left satisfies gas_left + (call_gas_fee + memory fees) =
original gas_left + message_call_gas_fee. -/
theorem c10_failure_keeps_charges (proc : Processor) (evm : Evm)
    (gas w value mis miz mos moz : Nat) (rest : List Nat)
    (hstack : evm.stack
      = gas :: w :: value :: mis :: miz :: mos :: moz :: rest)
    (hgasCall : calculate_call_gas_cost evm.env.state gas (to_address w) value
      + callMemoryFees evm mis miz mos moz ≤ evm.gas_left)
    (hgasCode : calculate_call_gas_cost evm.env.state gas
        evm.message.current_target value
      + callMemoryFees evm mis miz mos moz ≤ evm.gas_left)
    (hfail : (get_account evm.env.state evm.message.current_target).balance
        < value
      ∨ (¬ (get_account evm.env.state evm.message.current_target).balance
          < value
        ∧ evm.message.depth + 1 > STACK_DEPTH_LIMIT)) :
    (call proc evm = Except.ok { evm with
      stack := 0 :: rest
      memory := callExtendedMemory evm mis miz mos moz
      gas_left := evm.gas_left
        - calculate_call_gas_cost evm.env.state gas (to_address w) value
        - calculate_gas_extend_memory evm.memory mis miz
        - calculate_gas_extend_memory (extend_memory evm.memory mis miz) mos moz
        + (gas + calculate_message_call_gas_stipend value) }
    ∧ callcode proc evm = Except.ok { evm with
      stack := 0 :: rest
      memory := callExtendedMemory evm mis miz mos moz
      gas_left := evm.gas_left
        - calculate_call_gas_cost evm.env.state gas
            evm.message.current_target value
        - calculate_gas_extend_memory evm.memory mis miz
        - calculate_gas_extend_memory (extend_memory evm.memory mis miz) mos moz
        + (gas + calculate_message_call_gas_stipend value) })
    ∧ (miz ≠ 0 →
      mis + miz ≤ (callExtendedMemory evm mis miz mos moz).length)
    ∧ (moz ≠ 0 →
      mos + moz ≤ (callExtendedMemory evm mis miz mos moz).length)
    ∧ (evm.gas_left
        - calculate_call_gas_cost evm.env.state gas (to_address w) value
        - calculate_gas_extend_memory evm.memory mis miz
        - calculate_gas_extend_memory (extend_memory evm.memory mis miz) mos moz
        + (gas + calculate_message_call_gas_stipend value))
        + (calculate_call_gas_cost evm.env.state gas (to_address w) value
          + callMemoryFees evm mis miz mos moz)
      = evm.gas_left + (gas + calculate_message_call_gas_stipend value)
    ∧ (evm.gas_left
        - calculate_call_gas_cost evm.env.state gas
            evm.message.current_target value
        - calculate_gas_extend_memory evm.memory mis miz
        - calculate_gas_extend_memory (extend_memory evm.memory mis miz) mos moz
        + (gas + calculate_message_call_gas_stipend value))
        + (calculate_call_gas_cost evm.env.state gas
            evm.message.current_target value
          + callMemoryFees evm mis miz mos moz)
      = evm.gas_left + (gas + calculate_message_call_gas_stipend value) := by
  refine ⟨?_, ?_, ?_, ?_, ?_⟩
  · rcases hfail with hbal | ⟨hbal, hdepth⟩
    · exact ⟨call_fail_balance_eq proc evm gas w value mis miz mos moz rest
        hstack hgasCall hbal,
        callcode_fail_balance_eq proc evm gas w value mis miz mos moz rest
        hstack hgasCode hbal⟩
    · exact ⟨call_fail_depth_eq proc evm gas w value mis miz mos moz rest
        hstack hgasCall hbal hdepth,
        callcode_fail_depth_eq proc evm gas w value mis miz mos moz rest
        hstack hgasCode hbal hdepth⟩
  · intro hz
    exact le_trans (extend_memory_covers evm.memory mis miz hz)
      (extend_memory_length_le _ mos moz)
  · intro hz
    exact extend_memory_covers _ mos moz hz
  · unfold callMemoryFees at hgasCall ⊢
    omega
  · unfold callMemoryFees at hgasCode ⊢
    omega

/-- A CALL/CALLCODE frame with value 60 exceeding the executing
account's balance 50, a four-byte input region at 0 and an eight-byte
output region at 10. -/
def c10Evm : Evm := { baseEvm with stack := [5, 7, 60, 0, 4, 10, 8] }

theorem c10_witness :
    (call sampleProcessor c10Evm = Except.ok { c10Evm with
      stack := 0 :: []
      memory := callExtendedMemory c10Evm 0 4 10 8
      gas_left := c10Evm.gas_left
        - calculate_call_gas_cost c10Evm.env.state 5 (to_address 7) 60
        - calculate_gas_extend_memory c10Evm.memory 0 4
        - calculate_gas_extend_memory (extend_memory c10Evm.memory 0 4) 10 8
        + (5 + calculate_message_call_gas_stipend 60) }
    ∧ callcode sampleProcessor c10Evm = Except.ok { c10Evm with
      stack := 0 :: []
      memory := callExtendedMemory c10Evm 0 4 10 8
      gas_left := c10Evm.gas_left
        - calculate_call_gas_cost c10Evm.env.state 5
            c10Evm.message.current_target 60
        - calculate_gas_extend_memory c10Evm.memory 0 4
        - calculate_gas_extend_memory (extend_memory c10Evm.memory 0 4) 10 8
        + (5 + calculate_message_call_gas_stipend 60) })
    ∧ ((4 : Nat) ≠ 0 → 0 + 4 ≤ (callExtendedMemory c10Evm 0 4 10 8).length)
    ∧ ((8 : Nat) ≠ 0 → 10 + 8 ≤ (callExtendedMemory c10Evm 0 4 10 8).length)
    ∧ (c10Evm.gas_left
        - calculate_call_gas_cost c10Evm.env.state 5 (to_address 7) 60
        - calculate_gas_extend_memory c10Evm.memory 0 4
        - calculate_gas_extend_memory (extend_memory c10Evm.memory 0 4) 10 8
        + (5 + calculate_message_call_gas_stipend 60))
        + (calculate_call_gas_cost c10Evm.env.state 5 (to_address 7) 60
          + callMemoryFees c10Evm 0 4 10 8)
      = c10Evm.gas_left + (5 + calculate_message_call_gas_stipend 60)
    ∧ (c10Evm.gas_left
        - calculate_call_gas_cost c10Evm.env.state 5
            c10Evm.message.current_target 60
        - calculate_gas_extend_memory c10Evm.memory 0 4
        - calculate_gas_extend_memory (extend_memory c10Evm.memory 0 4) 10 8
        + (5 + calculate_message_call_gas_stipend 60))
        + (calculate_call_gas_cost c10Evm.env.state 5
            c10Evm.message.current_target 60
          + callMemoryFees c10Evm 0 4 10 8)
      = c10Evm.gas_left + (5 + calculate_message_call_gas_stipend 60) :=
  c10_failure_keeps_charges sampleProcessor c10Evm 5 7 60 0 4 10 8 []
    rfl (by decide) (by decide) (Or.inl (by decide))

end EvmSystem
